import Mathlib

/-!
A verification development for the minimal-local-RAG repository
(`src/main.py`, `src/cli.py`).

Text is modelled as `List Char` (Python `str` slicing and length are by
code point, which matches `List Char` exactly).  Python floats are
modelled as exact rationals (`ℚ`); Python's `round` (banker's rounding)
is modelled by `roundHalfEven`.  External collaborators (the ollama
embedding/generation services, the ChromaDB collection) are modelled as
explicit function parameters; an exception raised by a collaborator is a
constructor of its outcome type.  Python's `json.loads` (the standard
library, an external dependency of the source) is modelled by a
fuel-based recursive-descent parser `jsonParse` over the same grammar
(strict JSON plus the `NaN`/`Infinity`/`-Infinity` extensions that
Python accepts by default); `\uXXXX` escapes are decoded as single code
units without surrogate recombination, a corner no theorem touches.
-/

abbrev Str := List Char

/-- Model of Python `str.strip()` restricted to ASCII whitespace. -/
def pyStrip (s : Str) : Str :=
  let ws : Char → Bool := fun c =>
    c = ' ' || c = '\t' || c = '\n' || c = '\x0d' || c = '\x0b' || c = '\x0c'
  ((s.dropWhile ws).reverse.dropWhile ws).reverse

/-- JSON whitespace as skipped by Python's `json` scanner: space, tab,
newline, carriage return. -/
def skipWs (s : Str) : Str :=
  s.dropWhile (fun c => c = ' ' || c = '\t' || c = '\n' || c = '\x0d')

/-- Parsed JSON values.  Numbers keep their lexeme (the source never
inspects numeric values, only whole parsed structures). -/
inductive JVal where
  | null : JVal
  | bool : Bool → JVal
  | num : Str → JVal
  | str : Str → JVal
  | arr : List JVal → JVal
  | obj : List (Str × JVal) → JVal
deriving Repr

/-- Decode one `\uXXXX` hex digit. -/
def hexDigitVal (c : Char) : Option ℕ :=
  if '0' ≤ c ∧ c ≤ '9' then some (c.toNat - '0'.toNat)
  else if 'a' ≤ c ∧ c ≤ 'f' then some (c.toNat - 'a'.toNat + 10)
  else if 'A' ≤ c ∧ c ≤ 'F' then some (c.toNat - 'A'.toNat + 10)
  else none

/-- Body of a JSON string after the opening quote: returns the decoded
characters and the input remaining after the closing quote.  Control
characters are rejected (Python's strict mode). -/
def parseStringBody : Str → Option (Str × Str)
  | [] => none
  | '"' :: rest => some ([], rest)
  | '\\' :: 'u' :: h1 :: h2 :: h3 :: h4 :: rest => do
    let d1 ← hexDigitVal h1
    let d2 ← hexDigitVal h2
    let d3 ← hexDigitVal h3
    let d4 ← hexDigitVal h4
    let (cs, r) ← parseStringBody rest
    pure (Char.ofNat (((d1 * 16 + d2) * 16 + d3) * 16 + d4) :: cs, r)
  | '\\' :: e :: rest => do
    let c ← match e with
      | '"' => some '"'
      | '\\' => some '\\'
      | '/' => some '/'
      | 'b' => some '\x08'
      | 'f' => some '\x0c'
      | 'n' => some '\n'
      | 'r' => some '\x0d'
      | 't' => some '\t'
      | _ => none
    let (cs, r) ← parseStringBody rest
    pure (c :: cs, r)
  | c :: rest =>
    if c.toNat < 0x20 then none
    else do
      let (cs, r) ← parseStringBody rest
      pure (c :: cs, r)

/-- Lex a JSON number per the grammar Python's `json` uses:
`-?(0|[1-9][0-9]*)(\.[0-9]+)?([eE][+-]?[0-9]+)?`.  Returns the lexeme
and the rest. -/
def lexNumber (s : Str) : Option (Str × Str) :=
  let (sign, s1) : Str × Str :=
    match s with
    | '-' :: r => (['-'], r)
    | _ => ([], s)
  match s1 with
  | [] => none
  | c :: r =>
    if c = '0' then
      (lexFrac r).map (fun (t, rest) => (sign ++ '0' :: t, rest))
    else if c.isDigit then
      let ds := r.takeWhile Char.isDigit
      let r' := r.dropWhile Char.isDigit
      (lexFrac r').map (fun (t, rest) => (sign ++ c :: ds ++ t, rest))
    else none
where
  /-- fractional and exponent parts (possibly empty). -/
  lexFrac (s : Str) : Option (Str × Str) :=
    match s with
    | '.' :: r =>
      let ds := r.takeWhile Char.isDigit
      if ds.isEmpty then none
      else (lexExp (r.dropWhile Char.isDigit)).map
        (fun (t, rest) => ('.' :: ds ++ t, rest))
    | _ => lexExp s
  /-- exponent part (possibly empty). -/
  lexExp (s : Str) : Option (Str × Str) :=
    match s with
    | 'e' :: r => lexExpTail 'e' r
    | 'E' :: r => lexExpTail 'E' r
    | _ => some ([], s)
  lexExpTail (e : Char) (r : Str) : Option (Str × Str) :=
    let (sg, r1) : Str × Str :=
      match r with
      | '+' :: t => (['+'], t)
      | '-' :: t => (['-'], t)
      | _ => ([], r)
    let ds := r1.takeWhile Char.isDigit
    if ds.isEmpty then none
    else some (e :: sg ++ ds, r1.dropWhile Char.isDigit)

mutual

/-- One JSON value (fuel-based recursive descent, mirroring Python's
`json` scanner, including the `NaN`/`Infinity`/`-Infinity` constants
Python accepts by default). -/
def parseValue : ℕ → Str → Option (JVal × Str)
  | 0, _ => none
  | _ + 1, [] => none
  | fuel + 1, s@(c0 :: rest0) =>
    match s with
    | 'n' :: 'u' :: 'l' :: 'l' :: r => some (.null, r)
    | 't' :: 'r' :: 'u' :: 'e' :: r => some (.bool true, r)
    | 'f' :: 'a' :: 'l' :: 's' :: 'e' :: r => some (.bool false, r)
    | 'N' :: 'a' :: 'N' :: r => some (.num ['N', 'a', 'N'], r)
    | 'I' :: 'n' :: 'f' :: 'i' :: 'n' :: 'i' :: 't' :: 'y' :: r =>
      some (.num ['I', 'n', 'f', 'i', 'n', 'i', 't', 'y'], r)
    | '-' :: 'I' :: 'n' :: 'f' :: 'i' :: 'n' :: 'i' :: 't' :: 'y' :: r =>
      some (.num ['-', 'I', 'n', 'f', 'i', 'n', 'i', 't', 'y'], r)
    | '"' :: r => (parseStringBody r).map (fun p => (.str p.1, p.2))
    | '{' :: r =>
      match skipWs r with
      | '}' :: r2 => some (.obj [], r2)
      | r2 => (parseMembers fuel r2).map (fun p => (.obj p.1, p.2))
    | '[' :: r =>
      match skipWs r with
      | ']' :: r2 => some (.arr [], r2)
      | r2 => (parseElements fuel r2).map (fun p => (.arr p.1, p.2))
    | _ =>
      if c0 = '-' ∨ c0.isDigit then
        (lexNumber (c0 :: rest0)).map (fun p => (.num p.1, p.2))
      else none

/-- The members of a JSON object after the opening brace (non-empty
case), up to and including the closing brace. -/
def parseMembers : ℕ → Str → Option (List (Str × JVal) × Str)
  | 0, _ => none
  | fuel + 1, s =>
    match s with
    | '"' :: r => do
      let (key, r1) ← parseStringBody r
      match skipWs r1 with
      | ':' :: r2 => do
        let (v, r3) ← parseValue fuel (skipWs r2)
        match skipWs r3 with
        | ',' :: r4 =>
          (parseMembers fuel (skipWs r4)).map (fun p => ((key, v) :: p.1, p.2))
        | '}' :: r4 => some ([(key, v)], r4)
        | _ => none
      | _ => none
    | _ => none

/-- The elements of a JSON array after the opening bracket (non-empty
case), up to and including the closing bracket. -/
def parseElements : ℕ → Str → Option (List JVal × Str)
  | 0, _ => none
  | fuel + 1, s => do
    let (v, r) ← parseValue fuel s
    match skipWs r with
    | ',' :: r2 => (parseElements fuel (skipWs r2)).map (fun p => (v :: p.1, p.2))
    | ']' :: r2 => some ([v], r2)
    | _ => none

end

/-- Model of Python `json.loads`: parse one value with surrounding
whitespace allowed, requiring the whole input to be consumed.  `none`
models a raised `json.JSONDecodeError`. -/
def jsonParse (s : Str) : Option JVal :=
  match parseValue (2 * s.length + 4) (skipWs s) with
  | some (v, r) => if (skipWs r).isEmpty then some v else none
  | none => none

/-- Model of the fallback extraction in `structure_laqs_with_mistral`
(src/main.py line 313): `re.search(r"\{.*\}", raw_text, re.DOTALL)`,
i.e. the substring from the first `{` through the last `}` when such a
(leftmost-start, greedy-end) match exists. -/
def extractJson (s : Str) : Option Str :=
  let t := s.dropWhile (· ≠ '{')
  let u := (t.reverse.dropWhile (· ≠ '}')).reverse
  if u.isEmpty then none else some u

/-- Whether the input has a `{` followed somewhere later by a `}` —
exactly the condition under which the regex `\{.*\}` matches. -/
def hasBracePair (s : Str) : Bool :=
  ((s.dropWhile (· ≠ '{')).drop 1).contains '}'

/-- The response-coercion step of `structure_laqs_with_mistral`
(src/main.py lines 305-319): strip the response, attempt strict JSON
parsing, on failure fall back to the regex-extracted brace span; `none`
models returning Python `None` (both the explicit `return None` and the
outer exception handler that catches a `JSONDecodeError` raised while
parsing the extracted span). -/
def structure_laqs_parse (response : Str) : Option JVal :=
  let raw := pyStrip response
  match jsonParse raw with
  | some v => some v
  | none =>
    match extractJson raw with
    | some u => jsonParse u
    | none => none

/-- Outcome of one call to the external `ollama.embed` service: either
an exception, or a response whose `"embeddings"` field is a list of
vectors (vector components modelled as exact rationals). -/
inductive EmbedOutcome where
  | raises : EmbedOutcome
  | ok : List (List ℚ) → EmbedOutcome

/-- `embed_text` (src/main.py lines 77-83): returns
`ollama.embed(...)["embeddings"][0]`, with every exception (including
the `IndexError` when the embeddings list is empty) caught and turned
into the empty-list failure sentinel. -/
def embed_text (svc : Str → EmbedOutcome) (text : Str) : List ℚ :=
  match svc text with
  | .raises => []
  | .ok [] => []
  | .ok (v :: _) => v

/-- One question/answer unit of the structured record, with the fields
the storage step reads (`qa.get('question', '')` / `qa.get('answer', '')`
defaults already applied). -/
structure QAPair where
  question : Str
  answer : Str
deriving DecidableEq, Repr

/-- The coerced LAQ record as consumed by `store_in_ChromaDB`, with the
`laq_data.get(...)` defaults (`'N/A'`, `'unknown'`, `[]`) already
applied to the fields; `laq_number` holds the f-string rendering of the
record's `laq_number` value. -/
structure LAQData where
  pdf_title : Str
  laq_type : Str
  laq_number : Str
  minister : Str
  tabled_by : Str
  date : Str
  attachments : List Str
  qa_pairs : List QAPair
deriving DecidableEq, Repr

/-- The flat metadata map handed to `collection.add`
(src/main.py lines 48-59). -/
structure StoredMeta where
  pdf : Str
  pdf_title : Str
  laq_num : Str
  qa_pair_num : Str
  type : Str
  question : Str
  answer : Str
  minister : Str
  date : Str
  attachments : Str
deriving DecidableEq, Repr

/-- One call to the persistence collaborator's `collection.add`
(src/main.py lines 61-66). -/
structure AddCall where
  id : Str
  embedding : List ℚ
  metadata : StoredMeta
  document : Str
deriving DecidableEq, Repr

/-- Observable outcome of one run of `store_in_ChromaDB`: the counter it
prints (`stored`/`attempted`), the pairs skipped for embedding failure,
the pairs whose `collection.add` raised, and every call handed to the
persistence collaborator, in order. -/
structure StoreReport where
  attempted : ℕ
  stored : ℕ
  skipped : List ℕ
  addErrors : List ℕ
  addCalls : List AddCall
deriving DecidableEq, Repr

/-- The final path component, as in Python `PurePath.name`. -/
def pathName (p : Str) : Str :=
  (p.reverse.takeWhile (· ≠ '/')).reverse

/-- Python `Path(p).stem`: the final component without its suffix, where
the suffix starts at the last dot `i` of the name only if
`0 < i < len(name) - 1`. -/
def pathStem (p : Str) : Str :=
  let n := pathName p
  let suf := n.reverse.takeWhile (· ≠ '.')
  if 0 < suf.length ∧ suf.length + 1 < n.length then
    n.take (n.length - 1 - suf.length)
  else n

/-- Decimal rendering of a natural number, as Python `f"{idx}"`. -/
def natToStr (n : ℕ) : Str := (Nat.repr n).toList

/-- Lower-case hex digit. -/
def hexDigitChar (n : ℕ) : Char :=
  if n < 10 then Char.ofNat ('0'.toNat + n) else Char.ofNat ('a'.toNat + n - 10)

/-- Four-digit hex rendering used by `\uXXXX` escapes. -/
def hex4 (n : ℕ) : Str :=
  [hexDigitChar (n / 4096 % 16), hexDigitChar (n / 256 % 16),
   hexDigitChar (n / 16 % 16), hexDigitChar (n % 16)]

/-- Escaping of one character inside a `json.dumps` string with the
default `ensure_ascii=True`. -/
def jsonEscapeChar (c : Char) : Str :=
  if c = '"' then ['\\', '"']
  else if c = '\\' then ['\\', '\\']
  else if c = '\n' then ['\\', 'n']
  else if c = '\t' then ['\\', 't']
  else if c = '\x0d' then ['\\', 'r']
  else if c = '\x08' then ['\\', 'b']
  else if c = '\x0c' then ['\\', 'f']
  else if c.toNat < 0x20 then '\\' :: 'u' :: hex4 c.toNat
  else if c.toNat < 0x7f then [c]
  else if c.toNat < 0x10000 then '\\' :: 'u' :: hex4 c.toNat
  else
    let m := c.toNat - 0x10000
    '\\' :: 'u' :: hex4 (0xd800 + m / 1024) ++ '\\' :: 'u' :: hex4 (0xdc00 + m % 1024)

/-- Model of `json.dumps` on a list of strings (src/main.py line 58). -/
def jsonDumpsStrList (xs : List Str) : Str :=
  '[' :: (List.intercalate [',', ' ']
    (xs.map (fun s => '"' :: (s.map jsonEscapeChar).flatten ++ ['"']))) ++ [']']

/-- The embedded document text of one pair
(src/main.py line 41): `f"Q: {question}\nA: {answer}"`. -/
def qaText (qa : QAPair) : Str :=
  'Q' :: ':' :: ' ' :: (qa.question ++ '\n' :: 'A' :: ':' :: ' ' :: qa.answer)

/-- The deterministic document id (src/main.py line 37):
`f"{Path(pdf_name).stem}_{laq_num}_qa{idx}"` with `idx` 1-based. -/
def mkDocId (pdfName laqNumber : Str) (idx : ℕ) : Str :=
  pathStem pdfName ++ '_' :: (laqNumber ++ '_' :: 'q' :: 'a' :: natToStr idx)

/-- The `collection.add` call built for pair `idx` (1-based) with
embedding `emb` (src/main.py lines 36-66). -/
def mkAddCall (laq : LAQData) (pdfName : Str) (qa : QAPair) (idx : ℕ)
    (emb : List ℚ) : AddCall :=
  { id := mkDocId pdfName laq.laq_number idx
    embedding := emb
    metadata :=
      { pdf := pdfName
        pdf_title := laq.pdf_title
        laq_num := laq.laq_number
        qa_pair_num := natToStr idx
        type := laq.laq_type
        question := qa.question.take 500
        answer := qa.answer.take 500
        minister := laq.minister
        date := laq.date
        attachments := jsonDumpsStrList laq.attachments }
    document := qaText qa }

/-- Partial report of the per-pair loop of `store_in_ChromaDB`
starting at 1-based index `idx`. -/
structure StoreLoopOut where
  stored : ℕ
  skipped : List ℕ
  addErrors : List ℕ
  addCalls : List AddCall
deriving DecidableEq, Repr

/-- The `for idx, qa in enumerate(qa_pairs, 1)` loop of
`store_in_ChromaDB` (src/main.py lines 34-69): embed the pair's text;
an empty embedding skips the pair; otherwise the add call is handed to
the persistence collaborator (`addOk` tells whether that external call
returns normally or raises — a raise is caught, recorded, and the loop
continues). -/
def storeLoop (svc : Str → EmbedOutcome) (addOk : AddCall → Bool)
    (laq : LAQData) (pdfName : Str) : List QAPair → ℕ → StoreLoopOut
  | [], _ => ⟨0, [], [], []⟩
  | qa :: rest, idx =>
    let emb := embed_text svc (qaText qa)
    let r := storeLoop svc addOk laq pdfName rest (idx + 1)
    if emb.isEmpty then
      ⟨r.stored, idx :: r.skipped, r.addErrors, r.addCalls⟩
    else
      let call := mkAddCall laq pdfName qa idx emb
      if addOk call then
        ⟨r.stored + 1, r.skipped, r.addErrors, call :: r.addCalls⟩
      else
        ⟨r.stored, r.skipped, idx :: r.addErrors, call :: r.addCalls⟩

/-- `store_in_ChromaDB` (src/main.py lines 25-73): rejects a record with
no Q&A pairs before any persistence call, otherwise runs the per-pair
loop; always returns its report normally (the source prints messages and
returns `None` in every branch). -/
def store_in_ChromaDB (svc : Str → EmbedOutcome) (addOk : AddCall → Bool)
    (laq : LAQData) (pdfName : Str) : StoreReport :=
  if laq.qa_pairs.isEmpty then
    ⟨laq.qa_pairs.length, 0, [], [], []⟩
  else
    let o := storeLoop svc addOk laq pdfName laq.qa_pairs 1
    ⟨laq.qa_pairs.length, o.stored, o.skipped, o.addErrors, o.addCalls⟩

/-- Python's `round` to an integer: round-half-to-even (banker's
rounding), modelled over exact rationals. -/
def roundHalfEven (q : ℚ) : ℤ :=
  if q - ⌊q⌋ < 1 / 2 then ⌊q⌋
  else if 1 / 2 < q - ⌊q⌋ then ⌊q⌋ + 1
  else if 2 ∣ ⌊q⌋ then ⌊q⌋ else ⌊q⌋ + 1

/-- Python `round(x, 2)`. -/
def pyRound2 (x : ℚ) : ℚ := (roundHalfEven (x * 100) : ℚ) / 100

/-- The similarity score of `search_laq` (src/main.py line 409):
`round((1 - dist) * 100, 2)`, with no clamping. -/
def similarity (dist : ℚ) : ℚ := pyRound2 ((1 - dist) * 100)

/-- The color-coded match quality of a result. -/
inductive MatchQuality where
  | strong : MatchQuality
  | moderate : MatchQuality
  | weak : MatchQuality
deriving DecidableEq, Repr

/-- The quality bucket of `search_laq` (src/main.py lines 417-422):
`score >= 80` strong, `score >= 60` moderate, else weak. -/
def bucketOf (score : ℚ) : MatchQuality :=
  if 80 ≤ score then .strong
  else if 60 ≤ score then .moderate
  else .weak

/-- One ranked retrieval result: score, bucket and the stored metadata
snapshot; constructed fresh per query, never persisted. -/
structure RankedSource where
  similarity : ℚ
  quality : MatchQuality
  metadata : StoredMeta
deriving DecidableEq, Repr

/-- The RetrievalRanker applied to the persistence collaborator's raw
matches, order-preserving (the collaborator's native ranking is kept;
src/main.py lines 407-422 compute score and bucket per result in
order). -/
def rankResults (raws : List (ℚ × StoredMeta)) : List RankedSource :=
  raws.map (fun m => ⟨similarity m.1, bucketOf (similarity m.1), m.2⟩)

/-- The `"\nAttachments: ..."` fragment of the chat context
(src/main.py lines 478-483): the metadata's JSON-encoded attachments
string is parsed back; a list of strings renders as
`"\nAttachments: " ++ ", ".join(...)` when non-empty, and any parse or
join failure yields the empty fragment. -/
def attachmentsFragment (s : Str) : Str :=
  match jsonParse s with
  | some (JVal.arr xs) =>
    match xs.mapM (fun v => match v with | JVal.str t => some t | _ => none) with
    | some strs =>
      if strs.isEmpty then []
      else '\n' :: ("Attachments: ".toList ++ List.intercalate [',', ' '] strs)
    | none => []
  | _ => []

/-- The per-result block of the chat context template
(src/main.py line 485). -/
def contextBlock (m : StoredMeta) : Str :=
  ['\n'] ++ "LAQ Type: ".toList ++ m.type ++ ['\n'] ++ "LAQ No: ".toList ++ m.laq_num
    ++ ['\n'] ++ "Minister: ".toList ++ m.minister ++ ['\n'] ++ "Date: ".toList ++ m.date
    ++ ['\n', 'Q', ':', ' '] ++ m.question ++ ['\n', 'A', ':', ' '] ++ m.answer
    ++ attachmentsFragment m.attachments ++ ['\n']

/-- The grounded context block serializing each ranked result's fields
in the fixed textual template (src/main.py lines 475-485). -/
def buildContext (sources : List RankedSource) : Str :=
  "Relevant LAQs:\n".toList ++ (sources.map (fun s => contextBlock s.metadata)).flatten

/-- The single chat prompt: context block, the literal instruction to
answer from it, then the query verbatim (src/main.py line 487). -/
def mkChatPrompt (sources : List RankedSource) (query : Str) : Str :=
  buildContext sources ++ "\n\nAnswer this query based on above LAQs:\n".toList ++ query

/-- Decoding options passed to the external text-generation
collaborator. -/
structure GenOptions where
  temperature : ℚ
  stream : Bool
deriving DecidableEq, Repr

/-- Modelled from the spec: `rag.RAGService.chat` (the ChatSynthesizer
of spec §4.5) is not under src/; only its caller `CLI.chat_laq`
(src/cli.py lines 151-182) is.  Modelled faithfully to the spec's words:
fail on an empty/blank query before any vector call; embed the query,
failing (`QueryEmbeddingFailed`, modelled as `none`) if the embedding
fails; retrieve top-K (K=3) matches from the persistence collaborator;
rank them via the RetrievalRanker; build the fixed-template context
(the template of src/main.py lines 475-487); delegate to the
text-generation collaborator with zero-temperature decoding and no
streaming; return its text unmodified together with the ranked
sources. -/
def ragChat (svc : Str → EmbedOutcome)
    (persistQuery : List ℚ → ℕ → List (ℚ × StoredMeta))
    (generate : Str → GenOptions → Str) (query : Str) :
    Option (Str × List RankedSource) :=
  if (pyStrip query).isEmpty then none
  else
    let v := embed_text svc query
    if v.isEmpty then none
    else
      let ranked := rankResults (persistQuery v 3)
      some (generate (mkChatPrompt ranked query) ⟨0, false⟩, ranked)

/-- The fixed prompt text of `structure_laqs_with_mistral` preceding
the inlined markdown (src/main.py lines 106-293), rendered with the
f-string's literal braces. -/
def promptHeader : Str :=
  "
You are a structured data extraction assistant specialized in OFFICIAL Legislative Assembly Question (LAQ) documents.

IMPORTANT CONTEXT:
The input is RAW MARKDOWN TEXT extracted from an official LAQ PDF.
It may contain headings, bullet points, flattened tables, page headers/footers,
irregular line breaks, and sub-questions marked as (a), (b), (c), etc.

Your task is to extract COMPLETE, ACCURATE, and MACHINE-READABLE structured data.
This output will be consumed by an e-Governance system, so correctness is critical.

────────────────────────────────────────────
CORE TASKS
────────────────────────────────────────────

1. Extract LAQ metadata:
   - pdf_title
   - laq_type (Starred / Unstarred)
   - laq_number
   - minister
   - tabled_by
   - date

2. Extract QUESTION–ANSWER pairs:
   - EACH sub-question ((a), (b), (c), etc.) MUST be a SEPARATE entry.
   - Do NOT merge sub-questions.
   - Preserve original wording EXACTLY.
   - Do NOT paraphrase.
   - Questions and answers must be complete.

3. For EACH question–answer pair:
   - Identify ALL relevant GOVERNANCE DOMAINS.
   - Assign roles: \"Primary\" or \"Secondary\".
   - Limit to MAXIMUM 3 domains.
   - Assign confidence scores (0.00–1.00).
   - Map EACH domain to its official Demand Number.

4. Compute analytics fields:
   - total_domains_identified
   - is_inter_domain (true if more than one domain)

────────────────────────────────────────────
GOVERNANCE DOMAIN RULES
────────────────────────────────────────────

- Choose departments ONLY from the list below.
- Use department names EXACTLY as written.
- DO NOT invent new departments.
- Always choose ONE Primary domain when possible.
- If no domain clearly applies, return:

\"domains\": [
  \x7b
    \"department\": \"Unclear\",
    \"demand_number\": null,
    \"role\": \"Primary\",
    \"confidence\": 0.50
  \x7d
]

────────────────────────────────────────────
DEPARTMENT → DEMAND NUMBER MAPPING
────────────────────────────────────────────

Health → 32
Education → 27
Agriculture → 10
Water Resources → 22
Public Works Department → 21
Transport → 33
Tourism → 41
Revenue → 16
Urban Development → 25
Rural Development → 23
Power → 30
Environment → 19
Home → 18
Industries → 11
Ports → 40
River Navigation → 42
Fisheries → 12
Social Welfare → 35
Women and Child Development → 34
Housing → 26
Law and Judiciary → 17
Planning and Statistics → 08
Cooperation → 14
Information Technology → 05
Forest → 20
Mining → 09
Disaster Management → 36
Panchayati Raj → 24
Skill Development → 38
Labour and Employment → 15
Food and Civil Supplies → 13
Unclear → null

────────────────────────────────────────────
FEW-SHOT EXAMPLES
────────────────────────────────────────────

INPUT (Markdown):
(a) whether additional anganwadi centres have been sanctioned?
(b) steps taken to provide health check-ups to anganwadi children?

OUTPUT (partial):
\x7b
  \"qa_pairs\": [
    \x7b
      \"question\": \"(a) whether additional anganwadi centres have been sanctioned?\",
      \"answer\": \"...\",
      \"domains\": [
        \x7b
          \"department\": \"Women and Child Development\",
          \"demand_number\": 34,
          \"role\": \"Primary\",
          \"confidence\": 0.86
        \x7d
      ],
      \"total_domains_identified\": 1,
      \"is_inter_domain\": false
    \x7d,
    \x7b
      \"question\": \"(b) steps taken to provide health check-ups to anganwadi children?\",
      \"answer\": \"...\",
      \"domains\": [
        \x7b
          \"department\": \"Women and Child Development\",
          \"demand_number\": 34,
          \"role\": \"Primary\",
          \"confidence\": 0.82
        \x7d,
        \x7b
          \"department\": \"Health\",
          \"demand_number\": 32,
          \"role\": \"Secondary\",
          \"confidence\": 0.71
        \x7d
      ],
      \"total_domains_identified\": 2,
      \"is_inter_domain\": true
    \x7d
  ]
\x7d

────────────────────────────────────────────
REQUIRED OUTPUT FORMAT (STRICT JSON)
────────────────────────────────────────────

\x7b
  \"pdf_title\": \"\",
  \"laq_type\": \"\",
  \"laq_number\": \"\",
  \"minister\": \"\",
  \"tabled_by\": \"\",
  \"date\": \"\",
  \"qa_pairs\": [
    \x7b
      \"question\": \"\",
      \"answer\": \"\",
      \"domains\": [
        \x7b
          \"department\": \"\",
          \"demand_number\": null,
          \"role\": \"Primary\",
          \"confidence\": 0.00
        \x7d
      ],
      \"total_domains_identified\": 1,
      \"is_inter_domain\": false
    \x7d
  ],
  \"attachments\": []
\x7d

────────────────────────────────────────────
STRICT EXTRACTION RULES
────────────────────────────────────────────

1. Treat (a), (b), (c) as HARD boundaries.
2. Combine lines until next sub-question.
3. Preserve formatting using \"\\n\".
4. NEVER paraphrase or summarize.
5. Output ONLY valid JSON.
6. No explanations, comments, or markdown.

Now extract the structured data from the following MARKDOWN text:

".toList

/-- The prompt sent to the language model for structuring
(src/main.py lines 106-295): the fixed header, then
`markdown_data[:12000]`, then a final newline. -/
def buildMistralPrompt (markdownData : Str) : Str :=
  promptHeader ++ markdownData.take 12000 ++ ['\n']

/-! ## Helper lemmas -/

theorem dropWhile_append_all {α : Type} {p : α → Bool} {l1 l2 : List α}
    (h : ∀ a ∈ l1, p a = true) :
    (l1 ++ l2).dropWhile p = l2.dropWhile p := by
  induction l1 with
  | nil => rfl
  | cons a t ih =>
    rw [List.cons_append, List.dropWhile_cons_of_pos (h a (by simp))]
    exact ih (fun x hx => h x (by simp [hx]))

theorem dropWhile_head_false {α : Type} {p : α → Bool} :
    ∀ {l : List α} {c : α} {r : List α}, l.dropWhile p = c :: r → p c = false := by
  intro l
  induction l with
  | nil => intro c r h; simp [List.dropWhile] at h
  | cons a t ih =>
    intro c r h
    by_cases hp : p a = true
    · rw [List.dropWhile_cons_of_pos hp] at h
      exact ih h
    · rw [List.dropWhile_cons_of_neg hp] at h
      cases h
      simpa using hp

/-! ## C4 -/

/-- C4: for every input text, `embed_text` never lets a failure of the
underlying embedding service escape: when the external `ollama.embed`
call raises, or returns a response with an empty embeddings list (so
that indexing `[0]` raises), the function returns the empty-list
failure value instead of propagating an exception. -/
theorem embed_text_absorbs_failure :
    (∀ (svc : Str → EmbedOutcome) (t : Str),
      svc t = EmbedOutcome.raises → embed_text svc t = []) ∧
    (∀ (svc : Str → EmbedOutcome) (t : Str),
      svc t = EmbedOutcome.ok [] → embed_text svc t = []) := by
  constructor <;> intro svc t h <;> simp [embed_text, h]

theorem embed_text_absorbs_failure_witness :
    embed_text (fun _ => EmbedOutcome.raises) ('h' :: 'i' :: []) = [] :=
  embed_text_absorbs_failure.1 (fun _ => EmbedOutcome.raises) ('h' :: 'i' :: []) rfl

/-! ## C10 -/

/-- C10: the prompt sent to the language model embeds exactly
`markdown_data[:12000]`: it always equals the fixed header followed by
the first 12000 characters of the markdown and a newline; a document of
at most 12000 characters is sent in full; and the prompt depends only on
the first 12000 characters, so content beyond that limit never reaches
the model or coercion. -/
theorem prompt_truncates_markdown :
    (∀ md : Str, buildMistralPrompt md = promptHeader ++ md.take 12000 ++ ['\n']) ∧
    (∀ md : Str, md.length ≤ 12000 → buildMistralPrompt md = promptHeader ++ md ++ ['\n']) ∧
    (∀ md md2 : Str, md.take 12000 = md2.take 12000 →
      buildMistralPrompt md = buildMistralPrompt md2) := by
  refine ⟨fun md => rfl, fun md h => ?_, fun md md2 h => ?_⟩
  · rw [buildMistralPrompt, List.take_of_length_le h]
  · rw [buildMistralPrompt, buildMistralPrompt, h]

theorem prompt_truncates_markdown_witness :
    buildMistralPrompt ('d' :: 'o' :: 'c' :: [])
      = promptHeader ++ ('d' :: 'o' :: 'c' :: []) ++ ['\n'] :=
  prompt_truncates_markdown.2.1 ('d' :: 'o' :: 'c' :: []) (by simp)

/-! ## C8 -/

/-- C8: for every non-empty chat query whose embedding succeeds, the
chat operation queries the persistence collaborator for exactly the top
3 matches with the query's embedding, ranks them with the
RetrievalRanker (`rankResults`), calls the text-generation collaborator
with temperature 0 and streaming off, and returns that collaborator's
output unmodified together with the ranked sources. -/
theorem ragChat_pipeline (svc : Str → EmbedOutcome)
    (pq : List ℚ → ℕ → List (ℚ × StoredMeta))
    (gen : Str → GenOptions → Str) (query : Str)
    (hq : (pyStrip query).isEmpty = false)
    (he : (embed_text svc query).isEmpty = false) :
    ragChat svc pq gen query =
      some (gen (mkChatPrompt (rankResults (pq (embed_text svc query) 3)) query)
              ⟨0, false⟩,
            rankResults (pq (embed_text svc query) 3)) := by
  simp [ragChat, hq, he]

theorem ragChat_pipeline_witness :
    ragChat (fun _ => EmbedOutcome.ok [[1]]) (fun _ _ => [])
        (fun _ _ => 'o' :: 'k' :: []) ('h' :: 'i' :: [])
      = some ('o' :: 'k' :: [], []) := by
  rw [ragChat_pipeline (fun _ => EmbedOutcome.ok [[1]]) (fun _ _ => [])
    (fun _ _ => 'o' :: 'k' :: []) ('h' :: 'i' :: []) (by decide) (by decide)]
  rfl

/-! ## Lemmas about the per-pair storage loop -/

theorem storeLoop_skipped_length (svc : Str → EmbedOutcome) (addOk : AddCall → Bool)
    (laq : LAQData) (pdfName : Str) :
    ∀ (qas : List QAPair) (idx : ℕ),
      (storeLoop svc addOk laq pdfName qas idx).skipped.length
        = (qas.filter (fun qa => (embed_text svc (qaText qa)).isEmpty)).length := by
  intro qas
  induction qas with
  | nil => intro idx; rfl
  | cons qa rest ih =>
    intro idx
    by_cases he : (embed_text svc (qaText qa)).isEmpty
    · simp [storeLoop, he, ih]
    · rw [Bool.not_eq_true] at he
      simp only [storeLoop, he, Bool.false_eq_true, if_false, List.filter_cons]
      split <;> simp [he, ih]

theorem storeLoop_addCalls_length (svc : Str → EmbedOutcome) (addOk : AddCall → Bool)
    (laq : LAQData) (pdfName : Str) :
    ∀ (qas : List QAPair) (idx : ℕ),
      (storeLoop svc addOk laq pdfName qas idx).addCalls.length
        = (qas.filter (fun qa => !(embed_text svc (qaText qa)).isEmpty)).length := by
  intro qas
  induction qas with
  | nil => intro idx; rfl
  | cons qa rest ih =>
    intro idx
    by_cases he : (embed_text svc (qaText qa)).isEmpty
    · simp [storeLoop, he, ih]
    · rw [Bool.not_eq_true] at he
      simp only [storeLoop, he, Bool.false_eq_true, if_false, List.filter_cons]
      split <;> simp [he, ih]

theorem storeLoop_stored_eq_filter (svc : Str → EmbedOutcome) (addOk : AddCall → Bool)
    (laq : LAQData) (pdfName : Str) :
    ∀ (qas : List QAPair) (idx : ℕ),
      (storeLoop svc addOk laq pdfName qas idx).stored
        = ((storeLoop svc addOk laq pdfName qas idx).addCalls.filter
            (fun c => addOk c)).length := by
  intro qas
  induction qas with
  | nil => intro idx; rfl
  | cons qa rest ih =>
    intro idx
    by_cases he : (embed_text svc (qaText qa)).isEmpty
    · simp [storeLoop, he, ih]
    · rw [Bool.not_eq_true] at he
      simp only [storeLoop, he, Bool.false_eq_true, if_false]
      split <;> rename_i hok <;> simp [List.filter_cons, hok, ih]

theorem storeLoop_addErrors_eq_filter (svc : Str → EmbedOutcome) (addOk : AddCall → Bool)
    (laq : LAQData) (pdfName : Str) :
    ∀ (qas : List QAPair) (idx : ℕ),
      (storeLoop svc addOk laq pdfName qas idx).addErrors.length
        = ((storeLoop svc addOk laq pdfName qas idx).addCalls.filter
            (fun c => !(addOk c))).length := by
  intro qas
  induction qas with
  | nil => intro idx; rfl
  | cons qa rest ih =>
    intro idx
    by_cases he : (embed_text svc (qaText qa)).isEmpty
    · simp [storeLoop, he, ih]
    · rw [Bool.not_eq_true] at he
      simp only [storeLoop, he, Bool.false_eq_true, if_false]
      split <;> rename_i hok <;> simp [List.filter_cons, hok, ih]

theorem storeLoop_addCalls_spec (svc : Str → EmbedOutcome) (addOk : AddCall → Bool)
    (laq : LAQData) (pdfName : Str) :
    ∀ (qas : List QAPair) (idx : ℕ),
      ∀ c ∈ (storeLoop svc addOk laq pdfName qas idx).addCalls,
        ∃ i qa, qas[i]? = some qa ∧ (embed_text svc (qaText qa)).isEmpty = false ∧
          c = mkAddCall laq pdfName qa (idx + i) (embed_text svc (qaText qa)) := by
  intro qas
  induction qas with
  | nil => intro idx c hc; simp [storeLoop] at hc
  | cons qa rest ih =>
    intro idx c hc
    by_cases he : (embed_text svc (qaText qa)).isEmpty
    · simp only [storeLoop, he, if_true] at hc
      obtain ⟨i, qa', h1, h2, h3⟩ := ih (idx + 1) c hc
      refine ⟨i + 1, qa', by simpa using h1, h2, ?_⟩
      rw [h3]; congr 1; omega
    · simp only [storeLoop, he, Bool.false_eq_true, if_false] at hc
      have hc' : c = mkAddCall laq pdfName qa idx (embed_text svc (qaText qa)) ∨
          c ∈ (storeLoop svc addOk laq pdfName rest (idx + 1)).addCalls := by
        revert hc; split <;> intro hc <;> simpa using hc
      rcases hc' with hc' | hc'
      · refine ⟨0, qa, by simp, by simpa using he, ?_⟩
        rw [hc']; congr 1
      · obtain ⟨i, qa', h1, h2, h3⟩ := ih (idx + 1) c hc'
        refine ⟨i + 1, qa', by simpa using h1, h2, ?_⟩
        rw [h3]; congr 1; omega

theorem storeLoop_addCalls_exists (svc : Str → EmbedOutcome) (addOk : AddCall → Bool)
    (laq : LAQData) (pdfName : Str) :
    ∀ (qas : List QAPair) (idx : ℕ) (i : ℕ) (qa : QAPair),
      qas[i]? = some qa → (embed_text svc (qaText qa)).isEmpty = false →
      ∃ c ∈ (storeLoop svc addOk laq pdfName qas idx).addCalls,
        c = mkAddCall laq pdfName qa (idx + i) (embed_text svc (qaText qa)) := by
  intro qas
  induction qas with
  | nil => intro idx i qa h; simp at h
  | cons qa0 rest ih =>
    intro idx i qa hget he
    match i with
    | 0 =>
      have hqa : qa0 = qa := by simpa using hget
      subst hqa
      refine ⟨mkAddCall laq pdfName qa0 idx (embed_text svc (qaText qa0)), ?_, by rw [Nat.add_zero]⟩
      simp only [storeLoop, he, Bool.false_eq_true, if_false]
      split <;> simp
    | Nat.succ i' =>
      have hget' : rest[i']? = some qa := by simpa using hget
      obtain ⟨c, hc, hceq⟩ := ih (idx + 1) i' qa hget' he
      refine ⟨c, ?_, by rw [hceq]; congr 1; omega⟩
      by_cases he0 : (embed_text svc (qaText qa0)).isEmpty
      · simpa [storeLoop, he0] using hc
      · simp only [storeLoop, he0, Bool.false_eq_true, if_false]
        split <;> simp [hc]

theorem length_filter_split {α : Type} (l : List α) (f : α → Bool) :
    (l.filter f).length + (l.filter (fun a => !(f a))).length = l.length := by
  induction l with
  | nil => rfl
  | cons a t ih => by_cases h : f a <;> simp [List.filter_cons, h] <;> omega

/-! ## C2 -/

/-- C2: for a coerced record with `N` Q&A pairs of which `K` fail
embedding, and a persistence collaborator whose `add` succeeds,
ingestion reports `attempted = N` and `stored = N - K`, `skipped` has
exactly `K` entries, every call handed to the persistence collaborator
carries a successful (non-empty) embedding of its document, and in the
all-fail case `K = N` no call to the persistence collaborator occurs at
all. -/
theorem store_embedding_failure_accounting (svc : Str → EmbedOutcome)
    (addOk : AddCall → Bool) (laq : LAQData) (pdfName : Str)
    (hadd : ∀ c, addOk c = true) :
    (store_in_ChromaDB svc addOk laq pdfName).attempted = laq.qa_pairs.length ∧
    (store_in_ChromaDB svc addOk laq pdfName).stored
      = laq.qa_pairs.length
        - (laq.qa_pairs.filter (fun qa => (embed_text svc (qaText qa)).isEmpty)).length ∧
    (store_in_ChromaDB svc addOk laq pdfName).skipped.length
      = (laq.qa_pairs.filter (fun qa => (embed_text svc (qaText qa)).isEmpty)).length ∧
    (∀ c ∈ (store_in_ChromaDB svc addOk laq pdfName).addCalls,
      (embed_text svc c.document).isEmpty = false) ∧
    ((laq.qa_pairs.filter (fun qa => (embed_text svc (qaText qa)).isEmpty)).length
        = laq.qa_pairs.length →
      (store_in_ChromaDB svc addOk laq pdfName).addCalls = []) := by
  have hsplit := length_filter_split laq.qa_pairs
    (fun qa => (embed_text svc (qaText qa)).isEmpty)
  by_cases hqp : laq.qa_pairs.isEmpty
  · have hnil : laq.qa_pairs = [] := by simpa [List.isEmpty_iff] using hqp
    refine ⟨by simp [store_in_ChromaDB, hnil], ?_, ?_, ?_, ?_⟩ <;>
      simp [store_in_ChromaDB, hnil]
  · have hcalls : (store_in_ChromaDB svc addOk laq pdfName).addCalls
        = (storeLoop svc addOk laq pdfName laq.qa_pairs 1).addCalls := by
      simp [store_in_ChromaDB, hqp]
    have hskip : (store_in_ChromaDB svc addOk laq pdfName).skipped
        = (storeLoop svc addOk laq pdfName laq.qa_pairs 1).skipped := by
      simp [store_in_ChromaDB, hqp]
    have hstored : (store_in_ChromaDB svc addOk laq pdfName).stored
        = (storeLoop svc addOk laq pdfName laq.qa_pairs 1).stored := by
      simp [store_in_ChromaDB, hqp]
    have hattempted : (store_in_ChromaDB svc addOk laq pdfName).attempted
        = laq.qa_pairs.length := by
      simp [store_in_ChromaDB, hqp]
    have hall : ((storeLoop svc addOk laq pdfName laq.qa_pairs 1).addCalls.filter
        (fun c => addOk c)) = (storeLoop svc addOk laq pdfName laq.qa_pairs 1).addCalls :=
      List.filter_eq_self.mpr (fun c _ => hadd c)
    refine ⟨hattempted, ?_, ?_, ?_, ?_⟩
    · rw [hstored, storeLoop_stored_eq_filter, hall, storeLoop_addCalls_length]
      omega
    · rw [hskip, storeLoop_skipped_length]
    · intro c hc
      rw [hcalls] at hc
      obtain ⟨i, qa, h1, h2, h3⟩ :=
        storeLoop_addCalls_spec svc addOk laq pdfName laq.qa_pairs 1 c hc
      rw [h3]
      exact h2
    · intro hK
      rw [hcalls, ← List.length_eq_zero, storeLoop_addCalls_length]
      omega

theorem store_embedding_failure_accounting_witness :
    (store_in_ChromaDB
        (fun t => if t = qaText ⟨['q', '2'], ['a', '2']⟩ then EmbedOutcome.raises
                  else EmbedOutcome.ok [[1]])
        (fun _ => true)
        ⟨[], [], ['7'], [], [], [], [],
          [⟨['q', '1'], ['a', '1']⟩, ⟨['q', '2'], ['a', '2']⟩]⟩
        ('d' :: '.' :: 'p' :: 'd' :: 'f' :: [])).stored = 1 := by
  have h := (store_embedding_failure_accounting
    (fun t => if t = qaText ⟨['q', '2'], ['a', '2']⟩ then EmbedOutcome.raises
              else EmbedOutcome.ok [[1]])
    (fun _ => true)
    ⟨[], [], ['7'], [], [], [], [],
      [⟨['q', '1'], ['a', '1']⟩, ⟨['q', '2'], ['a', '2']⟩]⟩
    ('d' :: '.' :: 'p' :: 'd' :: 'f' :: []) (fun _ => rfl)).2.1
  rw [h]
  decide

/-! ## C5 -/

/-- C5 (amended): coercion returns every successfully parsed response
unchanged — it performs no `qa_pairs` check — and it is the storage step
(`store_in_ChromaDB`) that rejects a record whose `qa_pairs` sequence is
empty before any persistence call, so no empty-result record is ever
stored. -/
theorem empty_record_rejected_at_storage :
    (∀ (raw : Str) (v : JVal), jsonParse (pyStrip raw) = some v →
      structure_laqs_parse raw = some v) ∧
    (∀ (svc : Str → EmbedOutcome) (addOk : AddCall → Bool) (laq : LAQData)
        (pdfName : Str), laq.qa_pairs = [] →
      (store_in_ChromaDB svc addOk laq pdfName).addCalls = [] ∧
      (store_in_ChromaDB svc addOk laq pdfName).stored = 0) := by
  constructor
  · intro raw v h
    simp [structure_laqs_parse, h]
  · intro svc addOk laq pdfName h
    constructor <;> simp [store_in_ChromaDB, h]

/-- C5 counterexample: on the successfully parsed model response
`{"qa_pairs": []}` — whose `qa_pairs` sequence is empty — coercion does
not fail: it returns the parsed record. -/
theorem empty_qa_pairs_coercion_counterexample :
    structure_laqs_parse
        ('{' :: '"' :: 'q' :: 'a' :: '_' :: 'p' :: 'a' :: 'i' :: 'r' :: 's' :: '"'
          :: ':' :: ' ' :: '[' :: ']' :: '}' :: [])
      = some (JVal.obj [(['q', 'a', '_', 'p', 'a', 'i', 'r', 's'], JVal.arr [])]) := by
  rfl

theorem empty_record_rejected_at_storage_witness :
    structure_laqs_parse ('t' :: 'r' :: 'u' :: 'e' :: []) = some (JVal.bool true) ∧
    (store_in_ChromaDB (fun _ => EmbedOutcome.raises) (fun _ => true)
        ⟨[], [], [], [], [], [], [], []⟩ []).addCalls = [] :=
  ⟨empty_record_rejected_at_storage.1 ('t' :: 'r' :: 'u' :: 'e' :: []) (JVal.bool true) rfl,
   (empty_record_rejected_at_storage.2 (fun _ => EmbedOutcome.raises) (fun _ => true)
      ⟨[], [], [], [], [], [], [], []⟩ [] rfl).1⟩

/-! ## C6 -/

/-- C6: every call handed to the persistence collaborator stores
metadata whose question and answer are truncated to at most the first
500 characters of the pair's fields, while the embedded document text is
`"Q: " ++ question ++ "\nA: " ++ answer` built from the full,
untruncated strings. -/
theorem metadata_truncated_document_full (svc : Str → EmbedOutcome)
    (addOk : AddCall → Bool) (laq : LAQData) (pdfName : Str) :
    ∀ c ∈ (store_in_ChromaDB svc addOk laq pdfName).addCalls,
      ∃ qa, qa ∈ laq.qa_pairs ∧
        c.metadata.question = qa.question.take 500 ∧
        c.metadata.answer = qa.answer.take 500 ∧
        c.document
          = 'Q' :: ':' :: ' ' :: (qa.question ++ '\n' :: 'A' :: ':' :: ' ' :: qa.answer) := by
  intro c hc
  by_cases hqp : laq.qa_pairs.isEmpty
  · simp [store_in_ChromaDB, hqp] at hc
  · have hc' : c ∈ (storeLoop svc addOk laq pdfName laq.qa_pairs 1).addCalls := by
      simpa [store_in_ChromaDB, hqp] using hc
    obtain ⟨i, qa, h1, h2, h3⟩ :=
      storeLoop_addCalls_spec svc addOk laq pdfName laq.qa_pairs 1 c hc'
    exact ⟨qa, List.getElem?_mem h1, by rw [h3]; rfl, by rw [h3]; rfl, by rw [h3]; rfl⟩

theorem metadata_truncated_document_full_witness :
    ∃ qa, qa ∈ ([⟨['q'], ['a']⟩] : List QAPair) ∧
      (mkAddCall ⟨[], [], ['7'], [], [], [], [], [⟨['q'], ['a']⟩]⟩
          ('d' :: '.' :: 'p' :: 'd' :: 'f' :: []) ⟨['q'], ['a']⟩ 1 [1]).metadata.question
        = qa.question.take 500 ∧
      (mkAddCall ⟨[], [], ['7'], [], [], [], [], [⟨['q'], ['a']⟩]⟩
          ('d' :: '.' :: 'p' :: 'd' :: 'f' :: []) ⟨['q'], ['a']⟩ 1 [1]).metadata.answer
        = qa.answer.take 500 ∧
      (mkAddCall ⟨[], [], ['7'], [], [], [], [], [⟨['q'], ['a']⟩]⟩
          ('d' :: '.' :: 'p' :: 'd' :: 'f' :: []) ⟨['q'], ['a']⟩ 1 [1]).document
        = 'Q' :: ':' :: ' ' :: (qa.question ++ '\n' :: 'A' :: ':' :: ' ' :: qa.answer) :=
  metadata_truncated_document_full (fun _ => EmbedOutcome.ok [[1]]) (fun _ => true)
    ⟨[], [], ['7'], [], [], [], [], [⟨['q'], ['a']⟩]⟩
    ('d' :: '.' :: 'p' :: 'd' :: 'f' :: [])
    (mkAddCall ⟨[], [], ['7'], [], [], [], [], [⟨['q'], ['a']⟩]⟩
      ('d' :: '.' :: 'p' :: 'd' :: 'f' :: []) ⟨['q'], ['a']⟩ 1 [1])
    (by decide)

/-! ## C7 -/

/-- C7: for every source document and every Q&A pair at 1-based
position `i` of the coerced record (whose embedding succeeds, so that it
is stored at all), the id handed to the persistence collaborator is
exactly `mkDocId pdfName laq_number i`, i.e.
`f"{Path(pdf_name).stem}_{laq_num}_qa{i}"`; conversely every handed call
carries such an id.  Since `mkDocId` is a pure function of the source
name stem, the record's `laq_number` and the position, re-uploading the
same source with the same `laq_number` deterministically reproduces the
same ids at the same positions. -/
theorem doc_id_construction (svc : Str → EmbedOutcome) (addOk : AddCall → Bool)
    (laq : LAQData) (pdfName : Str) :
    (∀ (i : ℕ) (qa : QAPair), laq.qa_pairs[i]? = some qa →
      (embed_text svc (qaText qa)).isEmpty = false →
      ∃ c ∈ (store_in_ChromaDB svc addOk laq pdfName).addCalls,
        c.id = mkDocId pdfName laq.laq_number (i + 1) ∧ c.document = qaText qa) ∧
    (∀ c ∈ (store_in_ChromaDB svc addOk laq pdfName).addCalls,
      ∃ i qa, laq.qa_pairs[i]? = some qa ∧
        c.id = mkDocId pdfName laq.laq_number (i + 1)) := by
  constructor
  · intro i qa hget he
    by_cases hqp : laq.qa_pairs.isEmpty
    · rw [List.isEmpty_iff] at hqp
      rw [hqp] at hget
      simp at hget
    · obtain ⟨c, hc, hceq⟩ :=
        storeLoop_addCalls_exists svc addOk laq pdfName laq.qa_pairs 1 i qa hget he
      refine ⟨c, ?_, ?_, ?_⟩
      · simpa [store_in_ChromaDB, hqp] using hc
      · rw [hceq]
        show mkDocId pdfName laq.laq_number (1 + i) = mkDocId pdfName laq.laq_number (i + 1)
        rw [Nat.add_comm]
      · rw [hceq]
        rfl
  · intro c hc
    by_cases hqp : laq.qa_pairs.isEmpty
    · simp [store_in_ChromaDB, hqp] at hc
    · have hc' : c ∈ (storeLoop svc addOk laq pdfName laq.qa_pairs 1).addCalls := by
        simpa [store_in_ChromaDB, hqp] using hc
      obtain ⟨i, qa, h1, h2, h3⟩ :=
        storeLoop_addCalls_spec svc addOk laq pdfName laq.qa_pairs 1 c hc'
      refine ⟨i, qa, h1, ?_⟩
      rw [h3]
      show mkDocId pdfName laq.laq_number (1 + i) = mkDocId pdfName laq.laq_number (i + 1)
      rw [Nat.add_comm]

theorem doc_id_construction_witness :
    ∃ c ∈ (store_in_ChromaDB (fun _ => EmbedOutcome.ok [[1]]) (fun _ => true)
        ⟨[], [], ['7'], [], [], [], [], [⟨['q'], ['a']⟩]⟩
        ('d' :: '.' :: 'p' :: 'd' :: 'f' :: [])).addCalls,
      c.id = mkDocId ('d' :: '.' :: 'p' :: 'd' :: 'f' :: []) ['7'] (0 + 1) ∧
      c.document = qaText ⟨['q'], ['a']⟩ :=
  (doc_id_construction (fun _ => EmbedOutcome.ok [[1]]) (fun _ => true)
    ⟨[], [], ['7'], [], [], [], [], [⟨['q'], ['a']⟩]⟩
    ('d' :: '.' :: 'p' :: 'd' :: 'f' :: [])).1 0 ⟨['q'], ['a']⟩ (by decide) (by decide)

/-! ## C9 -/

/-- C9 (amended): a failure of the persistence collaborator's `add`
during ingestion is caught inside the per-pair loop, not bubbled: the
failing pair is recorded in `addErrors` and not counted as stored,
ingestion continues with the remaining pairs, and the report is
returned normally with every pair accounted for
(`stored + addErrors + skipped = attempted`); no cleanup of previously
handed calls is attempted. -/
theorem add_failure_absorbed (svc : Str → EmbedOutcome) (addOk : AddCall → Bool)
    (laq : LAQData) (pdfName : Str) :
    (store_in_ChromaDB svc addOk laq pdfName).stored
      = ((store_in_ChromaDB svc addOk laq pdfName).addCalls.filter
          (fun c => addOk c)).length ∧
    (store_in_ChromaDB svc addOk laq pdfName).addErrors.length
      = ((store_in_ChromaDB svc addOk laq pdfName).addCalls.filter
          (fun c => !(addOk c))).length ∧
    (store_in_ChromaDB svc addOk laq pdfName).stored
      + (store_in_ChromaDB svc addOk laq pdfName).addErrors.length
      + (store_in_ChromaDB svc addOk laq pdfName).skipped.length
      = (store_in_ChromaDB svc addOk laq pdfName).attempted := by
  by_cases hqp : laq.qa_pairs.isEmpty
  · have hnil : laq.qa_pairs = [] := by simpa [List.isEmpty_iff] using hqp
    refine ⟨?_, ?_, ?_⟩ <;> simp [store_in_ChromaDB, hnil]
  · have h1 : (store_in_ChromaDB svc addOk laq pdfName).stored
        = ((store_in_ChromaDB svc addOk laq pdfName).addCalls.filter
            (fun c => addOk c)).length := by
      simp only [store_in_ChromaDB, hqp, Bool.false_eq_true, if_false]
      exact storeLoop_stored_eq_filter svc addOk laq pdfName laq.qa_pairs 1
    have h2 : (store_in_ChromaDB svc addOk laq pdfName).addErrors.length
        = ((store_in_ChromaDB svc addOk laq pdfName).addCalls.filter
            (fun c => !(addOk c))).length := by
      simp only [store_in_ChromaDB, hqp, Bool.false_eq_true, if_false]
      exact storeLoop_addErrors_eq_filter svc addOk laq pdfName laq.qa_pairs 1
    refine ⟨h1, h2, ?_⟩
    rw [h1, h2]
    have hsplitCalls := length_filter_split
      (store_in_ChromaDB svc addOk laq pdfName).addCalls (fun c => addOk c)
    have hsplitPairs := length_filter_split laq.qa_pairs
      (fun qa => (embed_text svc (qaText qa)).isEmpty)
    have hlen : (store_in_ChromaDB svc addOk laq pdfName).addCalls.length
        = (laq.qa_pairs.filter (fun qa => !(embed_text svc (qaText qa)).isEmpty)).length := by
      simp only [store_in_ChromaDB, hqp, Bool.false_eq_true, if_false]
      exact storeLoop_addCalls_length svc addOk laq pdfName laq.qa_pairs 1
    have hskip : (store_in_ChromaDB svc addOk laq pdfName).skipped.length
        = (laq.qa_pairs.filter (fun qa => (embed_text svc (qaText qa)).isEmpty)).length := by
      simp only [store_in_ChromaDB, hqp, Bool.false_eq_true, if_false]
      exact storeLoop_skipped_length svc addOk laq pdfName laq.qa_pairs 1
    have hatt : (store_in_ChromaDB svc addOk laq pdfName).attempted
        = laq.qa_pairs.length := by
      simp [store_in_ChromaDB, hqp]
    have hfail : (laq.qa_pairs.filter
        (fun qa => !((fun qa => (embed_text svc (qaText qa)).isEmpty) qa))).length
        = (laq.qa_pairs.filter (fun qa => !(embed_text svc (qaText qa)).isEmpty)).length := rfl
    omega

/-- C9 counterexample: with a persistence collaborator whose `add`
raises on the first pair of a two-pair record, `store_in_ChromaDB`
returns its report normally — the error is only recorded (`addErrors =
[1]`), the second pair is still handed to the collaborator and stored —
so the failure is handled per-pair inside the loop rather than bubbled
to the caller as a typed failure. -/
theorem add_failure_swallowed_counterexample :
    (store_in_ChromaDB (fun _ => EmbedOutcome.ok [[1]])
        (fun c => decide (c.metadata.qa_pair_num ≠ ['1']))
        ⟨[], [], ['7'], [], [], [], [],
          [⟨['q', '1'], ['a', '1']⟩, ⟨['q', '2'], ['a', '2']⟩]⟩
        ('d' :: '.' :: 'p' :: 'd' :: 'f' :: [])).addErrors = [1] ∧
    (store_in_ChromaDB (fun _ => EmbedOutcome.ok [[1]])
        (fun c => decide (c.metadata.qa_pair_num ≠ ['1']))
        ⟨[], [], ['7'], [], [], [], [],
          [⟨['q', '1'], ['a', '1']⟩, ⟨['q', '2'], ['a', '2']⟩]⟩
        ('d' :: '.' :: 'p' :: 'd' :: 'f' :: [])).addCalls.length = 2 ∧
    (store_in_ChromaDB (fun _ => EmbedOutcome.ok [[1]])
        (fun c => decide (c.metadata.qa_pair_num ≠ ['1']))
        ⟨[], [], ['7'], [], [], [], [],
          [⟨['q', '1'], ['a', '1']⟩, ⟨['q', '2'], ['a', '2']⟩]⟩
        ('d' :: '.' :: 'p' :: 'd' :: 'f' :: [])).stored = 1 := by
  decide

/-! ## C3 -/

theorem roundHalfEven_floor_le (q : ℚ) : ⌊q⌋ ≤ roundHalfEven q := by
  unfold roundHalfEven
  split_ifs <;> omega

theorem roundHalfEven_le_floor_succ (q : ℚ) : roundHalfEven q ≤ ⌊q⌋ + 1 := by
  unfold roundHalfEven
  split_ifs <;> omega

theorem roundHalfEven_mono {a b : ℚ} (h : a ≤ b) :
    roundHalfEven a ≤ roundHalfEven b := by
  have hf : ⌊a⌋ ≤ ⌊b⌋ := Int.floor_le_floor h
  rcases eq_or_lt_of_le hf with heq | hlt
  · unfold roundHalfEven
    rw [← heq]
    have hr : a - (⌊a⌋ : ℚ) ≤ b - (⌊a⌋ : ℚ) := by linarith
    split_ifs <;> first | omega | linarith
  · calc roundHalfEven a ≤ ⌊a⌋ + 1 := roundHalfEven_le_floor_succ a
      _ ≤ ⌊b⌋ := by omega
      _ ≤ roundHalfEven b := roundHalfEven_floor_le b

/-- C3 (amended): the similarity score is `round((1 - d) * 100, 2)`
with no clamping (scores above 100 and below 0 are preserved, as the
concrete evaluations at d = -1/10 and d = 19/10 show); for two
distances d1 < d2 the score is antitone, `similarity d2 ≤ similarity
d1` — equality is possible when rounding to two decimals collapses the
two scores, so the monotonicity is non-strict; and the quality bucket is
strong iff score ≥ 80, moderate iff 60 ≤ score < 80, weak iff
score < 60, with bucket(95) strong, bucket(60) moderate and
bucket(59.99) weak. -/
theorem similarity_and_bucket_thresholds :
    (∀ d : ℚ, similarity d = ((roundHalfEven ((1 - d) * 100 * 100) : ℤ) : ℚ) / 100) ∧
    (∀ d1 d2 : ℚ, d1 < d2 → similarity d2 ≤ similarity d1) ∧
    (∀ s : ℚ, bucketOf s = MatchQuality.strong ↔ 80 ≤ s) ∧
    (∀ s : ℚ, bucketOf s = MatchQuality.moderate ↔ 60 ≤ s ∧ s < 80) ∧
    (∀ s : ℚ, bucketOf s = MatchQuality.weak ↔ s < 60) ∧
    bucketOf 95 = MatchQuality.strong ∧
    bucketOf 60 = MatchQuality.moderate ∧
    bucketOf (5999 / 100) = MatchQuality.weak ∧
    similarity (-1 / 10) = 110 ∧
    similarity (19 / 10) = -90 := by
  refine ⟨fun d => rfl, ?_, ?_, ?_, ?_, ?_, ?_, ?_, ?_, ?_⟩
  · intro d1 d2 h
    unfold similarity pyRound2
    have h1 : (1 - d2) * 100 * 100 ≤ (1 - d1) * 100 * 100 := by linarith
    have h2 := roundHalfEven_mono h1
    have h3 : ((roundHalfEven ((1 - d2) * 100 * 100) : ℤ) : ℚ)
        ≤ ((roundHalfEven ((1 - d1) * 100 * 100) : ℤ) : ℚ) := by exact_mod_cast h2
    linarith
  · intro s
    unfold bucketOf
    split_ifs with h1 h2
    · exact iff_of_true rfl h1
    · exact iff_of_false (by simp) h1
    · exact iff_of_false (by simp) h1
  · intro s
    unfold bucketOf
    split_ifs with h1 h2
    · exact iff_of_false (by simp) (fun h => absurd h1 (not_le.mpr h.2))
    · exact iff_of_true rfl ⟨h2, not_le.mp h1⟩
    · exact iff_of_false (by simp) (fun h => absurd h.1 h2)
  · intro s
    unfold bucketOf
    split_ifs with h1 h2
    · exact iff_of_false (by simp) (not_lt.mpr (by linarith))
    · exact iff_of_false (by simp) (not_lt.mpr h2)
    · exact iff_of_true rfl (not_le.mp h2)
  · norm_num [bucketOf]
  · norm_num [bucketOf]
  · norm_num [bucketOf]
  · norm_num [similarity, pyRound2, roundHalfEven]
  · norm_num [similarity, pyRound2, roundHalfEven]

/-- C3 counterexample: strict monotonicity of the similarity score
fails — the distances 0 and 1/100000 are distinct, but rounding to two
decimals collapses both scores to 100, so `similarity d1 >
similarity d2` does not hold for d1 = 0 < d2 = 1/100000. -/
theorem similarity_strict_monotonicity_counterexample :
    (0 : ℚ) < 1 / 100000 ∧ similarity 0 = similarity (1 / 100000) := by
  constructor
  · norm_num
  · norm_num [similarity, pyRound2, roundHalfEven]

theorem similarity_and_bucket_thresholds_witness :
    similarity 1 ≤ similarity 0 :=
  similarity_and_bucket_thresholds.2.1 0 1 zero_lt_one

/-! ## C1 -/

theorem extractJson_of_delimited (p1 mid p2 : Str)
    (h1 : '{' ∉ p1) (h2 : '}' ∉ p2) :
    extractJson (p1 ++ ('{' :: mid ++ ['}']) ++ p2) = some ('{' :: mid ++ ['}']) := by
  have hp1 : ∀ a ∈ p1, ((· ≠ '{') : Char → Bool) a = true := by
    intro a ha
    simp only [decide_eq_true_eq]
    exact fun hh => h1 (hh ▸ ha)
  have hp2 : ∀ a ∈ p2.reverse, ((· ≠ '}') : Char → Bool) a = true := by
    intro a ha
    simp only [decide_eq_true_eq]
    exact fun hh => h2 (hh ▸ List.mem_reverse.mp ha)
  have ht : (p1 ++ ('{' :: mid ++ ['}']) ++ p2).dropWhile (· ≠ '{')
      = ('{' :: mid ++ ['}']) ++ p2 := by
    rw [List.append_assoc, dropWhile_append_all hp1]
    have hshape : ('{' :: mid ++ ['}']) ++ p2 = '{' :: (mid ++ ['}'] ++ p2) := by simp
    rw [hshape, List.dropWhile_cons_of_neg (by simp)]
  have hrev : (('{' :: mid ++ ['}']) ++ p2).reverse
      = p2.reverse ++ ('}' :: (mid.reverse ++ ['{'])) := by
    simp
  have hu : ((('{' :: mid ++ ['}']) ++ p2).reverse.dropWhile (· ≠ '}')).reverse
      = '{' :: mid ++ ['}'] := by
    rw [hrev, dropWhile_append_all hp2, List.dropWhile_cons_of_neg (by simp)]
    simp
  simp only [extractJson, ht, hu]
  simp

theorem extractJson_eq_none_of_no_pair {s : Str} (h : hasBracePair s = false) :
    extractJson s = none := by
  unfold hasBracePair at h
  cases ht : s.dropWhile (· ≠ '{') with
  | nil =>
    simp only [extractJson]
    rw [ht]
    simp
  | cons c r =>
    have hc := dropWhile_head_false (p := (fun x => decide (x ≠ '{'))) ht
    have hc' : c = '{' := by simpa using hc
    rw [ht] at h
    simp only [List.drop_succ_cons, List.drop_zero] at h
    have hr : '}' ∉ r := by
      intro hm
      simp [hm] at h
    have hall : ∀ a ∈ r.reverse ++ [c], ((· ≠ '}') : Char → Bool) a = true := by
      intro a ha
      simp only [decide_eq_true_eq]
      rcases List.mem_append.mp ha with h' | h'
      · exact fun hh => hr (hh ▸ List.mem_reverse.mp h')
      · have haeq : a = c := by simpa using h'
        rw [haeq, hc']
        decide
    simp only [extractJson]
    rw [ht]
    have hrev : (c :: r).reverse = r.reverse ++ [c] := by simp
    rw [hrev, List.dropWhile_eq_nil_iff.mpr (fun x hx => by simpa using hall x hx)]
    simp

/-- C1 (amended): for every raw model response that fails strict JSON
parsing, coercion parses the regex span from the first `{` to the last
`}`.  When the response is a single JSON object surrounded by
extraneous prose with no `{` in the prose before it and no `}` in the
prose after it, that span is exactly the object and coercion returns
exactly its parse.  When the extracted span itself fails to parse (as
happens when a stray brace in the prose makes the span larger than the
object), or when the response has no `{` followed later by a `}`,
coercion fails with the `MalformedResponse` value `none` rather than
returning a record. -/
theorem coercion_brace_extraction :
    (∀ (resp p1 mid p2 : Str) (v : JVal),
      pyStrip resp = p1 ++ ('{' :: mid ++ ['}']) ++ p2 →
      '{' ∉ p1 → '}' ∉ p2 →
      jsonParse (pyStrip resp) = none →
      jsonParse ('{' :: mid ++ ['}']) = some v →
      structure_laqs_parse resp = some v) ∧
    (∀ (resp u : Str),
      jsonParse (pyStrip resp) = none →
      extractJson (pyStrip resp) = some u →
      jsonParse u = none →
      structure_laqs_parse resp = none) ∧
    (∀ resp : Str,
      jsonParse (pyStrip resp) = none →
      hasBracePair (pyStrip resp) = false →
      structure_laqs_parse resp = none) := by
  refine ⟨?_, ?_, ?_⟩
  · intro resp p1 mid p2 v hsplit h1 h2 hfail hobj
    simp only [structure_laqs_parse, hfail]
    rw [hsplit, extractJson_of_delimited p1 mid p2 h1 h2]
    exact hobj
  · intro resp u hfail hspan huparse
    simp only [structure_laqs_parse, hfail, hspan, huparse]
  · intro resp hfail hnone
    simp only [structure_laqs_parse, hfail, extractJson_eq_none_of_no_pair hnone]

/-- C1 counterexample, both clauses of the original claim at concrete
inputs.  Clause 2: the response `42` has no balanced brace pair, yet
coercion does not fail with `MalformedResponse` — strict JSON parsing
succeeds (Python `json.loads` accepts any top-level JSON value) and the
parsed value is returned.  Clause 1: the response `{x {"a":1}` fails
strict JSON parsing and contains the single JSON object `{"a":1}`
surrounded by extraneous prose (`{x ` before, nothing after), yet
coercion returns `none` rather than that object's parse: the prose
holds a stray `{`, so the greedy first-`{`-to-last-`}` regex span is
the whole response, whose parse fails. -/
theorem coercion_fallback_counterexample :
    structure_laqs_parse ('4' :: '2' :: []) = some (JVal.num ['4', '2']) ∧
    hasBracePair (pyStrip ('4' :: '2' :: [])) = false ∧
    jsonParse (pyStrip ('{' :: 'x' :: ' ' :: '{' :: '"' :: 'a' :: '"' :: ':' :: '1' :: '}' :: []))
      = none ∧
    pyStrip ('{' :: 'x' :: ' ' :: '{' :: '"' :: 'a' :: '"' :: ':' :: '1' :: '}' :: [])
      = ('{' :: 'x' :: ' ' :: [])
        ++ ('{' :: '"' :: 'a' :: '"' :: ':' :: '1' :: '}' :: []) ++ ([] : Str) ∧
    jsonParse ('{' :: '"' :: 'a' :: '"' :: ':' :: '1' :: '}' :: [])
      = some (JVal.obj [(['a'], JVal.num ['1'])]) ∧
    structure_laqs_parse ('{' :: 'x' :: ' ' :: '{' :: '"' :: 'a' :: '"' :: ':' :: '1' :: '}' :: [])
      = none :=
  ⟨rfl, rfl, rfl, rfl, rfl, rfl⟩

theorem coercion_brace_extraction_witness :
    structure_laqs_parse
        ('x' :: ' ' :: '{' :: '"' :: 'a' :: '"' :: ':' :: ' ' :: '1' :: '}' :: ' ' :: 'y' :: [])
      = some (JVal.obj [(['a'], JVal.num ['1'])]) ∧
    structure_laqs_parse ('{' :: 'x' :: ' ' :: '{' :: '"' :: 'a' :: '"' :: ':' :: '1' :: '}' :: [])
      = none ∧
    structure_laqs_parse ('n' :: 'o' :: ' ' :: 'j' :: 's' :: 'o' :: 'n' :: []) = none :=
  ⟨coercion_brace_extraction.1
      ('x' :: ' ' :: '{' :: '"' :: 'a' :: '"' :: ':' :: ' ' :: '1' :: '}' :: ' ' :: 'y' :: [])
      ('x' :: ' ' :: []) ('"' :: 'a' :: '"' :: ':' :: ' ' :: '1' :: []) (' ' :: 'y' :: [])
      (JVal.obj [(['a'], JVal.num ['1'])])
      rfl (by decide) (by decide) rfl rfl,
   coercion_brace_extraction.2.1
      ('{' :: 'x' :: ' ' :: '{' :: '"' :: 'a' :: '"' :: ':' :: '1' :: '}' :: [])
      ('{' :: 'x' :: ' ' :: '{' :: '"' :: 'a' :: '"' :: ':' :: '1' :: '}' :: [])
      rfl rfl rfl,
   coercion_brace_extraction.2.2 ('n' :: 'o' :: ' ' :: 'j' :: 's' :: 'o' :: 'n' :: []) rfl rfl⟩
